import Mathlib

/-!
Verification of the dependency-watchdog scaler core against its
natural-language specification. The data model and the metric
bootstrap are embedded from `src/pkg/scaler/types.go`; the prober
state machine, the scale decision and the registry reconciliation
are not shipped under `src/`, so those parts are modelled from the
specification (each such definition says so in its doc comment).
-/

namespace DWD

/-! ### Constants from `types.go` (lines 90-103) -/

def dwdNamespace : String := "dwd"

def subsystemAggregate : String := "aggr"

def labelResult : String := "result"

def resultSuccess : String := "success"

def resultFailure : String := "failure"

def labelResource : String := "resource"

def resourceSecrets : String := "secrets"

def resourceDeployments : String := "deployments"

def labelVerb : String := "verb"

def verbDiscovery : String := "discovery"

def verbGet : String := "GET"

def verbUpdate : String := "UPDATE"

/-! ### Configuration data model from `types.go` (lines 56-88)

Go pointer fields (`*probeDetails`, `*int32`) are embedded as `Option`;
`int32` values are embedded as `Int`. -/

/-- `probeDetails` (`types.go` lines 81-83). -/
structure probeDetails where
  KubeconfigSecretName : String
deriving DecidableEq

/-- `probeConfig` (`types.go` lines 71-79): every field is a Go pointer
with `omitempty`, hence `Option` here. -/
structure probeConfig where
  External : Option probeDetails
  Internal : Option probeDetails
  InitialDelaySeconds : Option Int
  TimeoutSeconds : Option Int
  PeriodSeconds : Option Int
  SuccessThreshold : Option Int
  FailureThreshold : Option Int
deriving DecidableEq

/-- `dependantScaleDetails` (`types.go` lines 85-88): a scale target
reference plus an optional explicit restore replica count. The
`ScaleRef` is reduced to its identifying name. -/
structure dependantScaleDetails where
  ScaleRefName : String
  Replicas : Option Int
deriving DecidableEq

/-- `probeDependants` (`types.go` lines 65-69). -/
structure probeDependants where
  Name : String
  Probe : Option probeConfig
  DependantScales : List dependantScaleDetails
deriving DecidableEq

/-- `ProbeDependantsList` (`types.go` lines 60-63). -/
structure ProbeDependantsList where
  Probes : List probeDependants
  Namespace : String
deriving DecidableEq

/-- Registry key for a probe target. Modelled from the spec and the
source comment on `Controller.probers` (`types.go` line 49):
"the key is <namespace>/<probeDependents.Name>". The code computing
the key is not under `src/`. -/
def proberKey (ns targetName : String) : String :=
  ns ++ "/" ++ targetName

/-! ### Metric bootstrap from `types.go` (lines 105-187)

A counter-vector child series is identified by the metric's full name
(`namespace_subsystem_name`, as Prometheus builds it) together with its
single label value; the state tracks each series' value and the list of
registered collector names. `withAdd` is `CounterVec.With(labels).Add(v)`:
it creates the series on first use and adds to it afterwards. -/

def metricFullName (name : String) : String :=
  dwdNamespace ++ "_" ++ subsystemAggregate ++ "_" ++ name

structure MetricsState where
  series : List (String × String × Int)
  registered : List String
deriving DecidableEq

def withAdd (s : List (String × String × Int)) (m l : String) (v : Int) :
    List (String × String × Int) :=
  match s with
  | [] => [(m, l, v)]
  | (m0, l0, v0) :: rest =>
      if m0 = m ∧ l0 = l then (m0, l0, v0 + v) :: rest
      else (m0, l0, v0) :: withAdd rest m l v

/-- The package `init` function (`types.go` lines 167-187), run before
any probe or scale activity: it seeds every labelled series at zero and
registers all six collectors, in source order. -/
def scalerInit : MetricsState :=
  let s1 := [resultSuccess, resultFailure].foldl
    (fun s lr =>
      withAdd (withAdd s (metricFullName "internal_probes_total") lr 0)
        (metricFullName "external_probes_total") lr 0) []
  let s2 := [resourceSecrets, resourceDeployments].foldl
    (fun s lr => withAdd s (metricFullName "get_from_cache_total") lr 0) s1
  let s3 := [verbDiscovery, verbGet, verbUpdate].foldl
    (fun s lv =>
      withAdd (withAdd s (metricFullName "scale_requests_total") lv 0)
        (metricFullName "throttled_scale_requests_total") lv 0) s2
  { series := s3
    registered :=
      [metricFullName "probers_total",
       metricFullName "get_from_cache_total",
       metricFullName "internal_probes_total",
       metricFullName "external_probes_total",
       metricFullName "scale_requests_total",
       metricFullName "throttled_scale_requests_total"] }

/-! ### Prober state machine

The prober implementation is not shipped under `src/`; the following
definitions are modelled from the specification (sections 3, 4.1 and 9:
the pure streak-transition function, the decision table, the scale
bookkeeping with captured replica counts, and cancellation). -/

/-- Outcome of one probe attempt. Modelled from the spec: probe
executor returns success or failure. -/
inductive ProbeResult
  | success
  | failure
deriving DecidableEq

/-- Logical state of a probe path, also used for the prober's
last-applied scale state. Modelled from the spec:
`currentScaleState ∈ {Up, Down, Unknown}`. -/
inductive PathState
  | unknown
  | up
  | down
deriving DecidableEq

/-- The two bounded streak counters of one probe path. Modelled from
the spec (section 9). -/
structure Streaks where
  successCount : Nat
  failureCount : Nat
deriving DecidableEq

/-- Modelled from the spec: the pure streak-transition function
`(currentState, counters, result) -> (newState, newCounters)` of one
probe path. A definitive result increments its own streak and resets
the opposite streak to zero; the logical state flips only when the
streak reaches the configured threshold. -/
def pathTransition (succT failT : Nat) (st : PathState) (c : Streaks)
    (r : ProbeResult) : PathState × Streaks :=
  match r with
  | .success =>
      let c' : Streaks := ⟨c.successCount + 1, 0⟩
      (if succT ≤ c'.successCount then .up else st, c')
  | .failure =>
      let c' : Streaks := ⟨0, c.failureCount + 1⟩
      (if failT ≤ c'.failureCount then .down else st, c')

/-- Iterate `pathTransition` over a sequence of probe results. -/
def runPath (succT failT : Nat) : PathState × Streaks → List ProbeResult →
    PathState × Streaks
  | sc, [] => sc
  | (st, c), r :: rs => runPath succT failT (pathTransition succT failT st c r) rs

/-- Modelled from the spec's decision table (section 4.1), evaluated on
the two paths' logical states: internal Up with external Up asks for
scale state Up, internal Up with external Down asks for scale state
Down, and every other combination asks for no action. -/
def decideScale (internal external : PathState) : Option PathState :=
  match internal, external with
  | .up, .up => some .up
  | .up, .down => some .down
  | _, _ => none

/-- One call issued to the scale actuator. Modelled from the spec's
Scale Actuator contract: `getReplicas` and `setReplicas`. -/
inductive ScaleCall
  | getReplicas (resource : String)
  | setReplicas (resource : String) (count : Int)
deriving DecidableEq

/-- The prober's private scale bookkeeping. Modelled from the spec:
last-applied scale state, the captured pre-incident replica counts
(an association list keyed by resource name), and the cancellation
signal. -/
structure ProberScaleState where
  lastApplied : PathState
  captured : List (String × Int)
  cancelled : Bool
deriving DecidableEq

/-- Lookup in an association list keyed by resource or registry name. -/
def lookupAssoc {α : Type} : List (String × α) → String → Option α
  | [], _ => none
  | (k, v) :: rest, n => if k = n then some v else lookupAssoc rest n

/-- Modelled from the spec: the scale-down pass over the dependants.
For a dependant with no explicit restore count and no prior capture,
the current replica count is read from the actuator (`env`) and stored
before the zero-scale update for that dependant is issued; every
dependant is then set to zero replicas. Returns the updated captured
map and the actuator call sequence. -/
def scaleDownCalls (env : String → Int) (captured : List (String × Int)) :
    List dependantScaleDetails → List (String × Int) × List ScaleCall
  | [] => (captured, [])
  | d :: ds =>
      match d.Replicas, lookupAssoc captured d.ScaleRefName with
      | none, none =>
          ((scaleDownCalls env (captured ++ [(d.ScaleRefName, env d.ScaleRefName)]) ds).1,
           ScaleCall.getReplicas d.ScaleRefName ::
             ScaleCall.setReplicas d.ScaleRefName 0 ::
               (scaleDownCalls env (captured ++ [(d.ScaleRefName, env d.ScaleRefName)]) ds).2)
      | _, _ =>
          ((scaleDownCalls env captured ds).1,
           ScaleCall.setReplicas d.ScaleRefName 0 :: (scaleDownCalls env captured ds).2)

/-- Modelled from the spec: the scale-up pass restores each dependant
to its explicit restore count when configured, otherwise to the
captured pre-incident count; a dependant with neither yields no call. -/
def scaleUpCalls (captured : List (String × Int)) :
    List dependantScaleDetails → List ScaleCall
  | [] => []
  | d :: ds =>
      (match d.Replicas with
       | some r => [ScaleCall.setReplicas d.ScaleRefName r]
       | none =>
           match lookupAssoc captured d.ScaleRefName with
           | some r => [ScaleCall.setReplicas d.ScaleRefName r]
           | none => []) ++ scaleUpCalls captured ds

/-- The captured-map entry a scale-down produces for one dependant:
dependants with an explicit restore count are not captured. -/
def capturedEntry (env : String → Int) (d : dependantScaleDetails) :
    Option (String × Int) :=
  match d.Replicas with
  | none => some (d.ScaleRefName, env d.ScaleRefName)
  | some _ => none

/-- The actuator calls a scale-down issues for one dependant starting
from an empty capture history: a read of the current replica count
(when no explicit restore count is configured) followed by the
zero-scale update. -/
def downCallPattern (d : dependantScaleDetails) : List ScaleCall :=
  match d.Replicas with
  | none => [ScaleCall.getReplicas d.ScaleRefName,
             ScaleCall.setReplicas d.ScaleRefName 0]
  | some _ => [ScaleCall.setReplicas d.ScaleRefName 0]

/-- Modelled from the spec: apply a desired scale state. A cancelled
prober issues nothing; a desired state equal to the last-applied state
issues nothing (idempotence at the decision layer); otherwise the
corresponding actuator call sequence is issued and the last-applied
state is updated. -/
def ensureScale (env : String → Int) (deps : List dependantScaleDetails)
    (p : ProberScaleState) (desired : PathState) :
    ProberScaleState × List ScaleCall :=
  if p.cancelled then (p, [])
  else if p.lastApplied = desired then (p, [])
  else
    match desired with
    | .down =>
        ({ p with lastApplied := .down,
                  captured := (scaleDownCalls env p.captured deps).1 },
         (scaleDownCalls env p.captured deps).2)
    | .up => ({ p with lastApplied := .up }, scaleUpCalls p.captured deps)
    | .unknown => (p, [])

/-- Modelled from the spec: one evaluation of the decision table on the
current logical path states, followed by the scale action it asks for. -/
def evaluate (env : String → Int) (deps : List dependantScaleDetails)
    (p : ProberScaleState) (internal external : PathState) :
    ProberScaleState × List ScaleCall :=
  match decideScale internal external with
  | none => (p, [])
  | some d => ensureScale env deps p d

/-- A sequence of evaluations: each element gives the internal and
external logical states at one evaluation; the issued actuator calls
are concatenated in order. -/
def evaluateSeq (env : String → Int) (deps : List dependantScaleDetails) :
    ProberScaleState → List (PathState × PathState) →
    ProberScaleState × List ScaleCall
  | p, [] => (p, [])
  | p, (i, e) :: rest =>
      ((evaluateSeq env deps (evaluate env deps p i e).1 rest).1,
       (evaluate env deps p i e).2 ++
         (evaluateSeq env deps (evaluate env deps p i e).1 rest).2)

/-! ### Prober registry

The `Controller` holds `probers map[string]*prober` guarded by `mux`
(`types.go` lines 49-50); the reconciliation code mutating it is not
under `src/`, so its operations are modelled from the specification
(sections 3, 4.2): every membership mutation happens while the
exclusive lock is held, inserts only create a prober for a key that
has none, removals erase a key, and leadership loss clears the whole
mapping. Probers are identified by an abstract numeric id. -/

/-- State of the registry: the key-to-prober mapping and whether the
exclusive lock is currently held. -/
structure RegistryState where
  probers : List (String × Nat)
  locked : Bool
deriving DecidableEq

/-- Modelled from the spec: the atomic operations on the registry.
Mutations of the mapping require the lock to be held. -/
inductive RegistryStep : RegistryState → RegistryState → Prop
  | acquire (s : RegistryState) :
      s.locked = false → RegistryStep s ⟨s.probers, true⟩
  | release (s : RegistryState) :
      s.locked = true → RegistryStep s ⟨s.probers, false⟩
  | insertProber (s : RegistryState) (k : String) (pid : Nat) :
      s.locked = true → lookupAssoc s.probers k = none →
      RegistryStep s ⟨s.probers ++ [(k, pid)], true⟩
  | removeProber (s : RegistryState) (k : String) :
      s.locked = true →
      RegistryStep s ⟨s.probers.filter (fun e => e.1 ≠ k), true⟩
  | clearAll (s : RegistryState) :
      s.locked = true → RegistryStep s ⟨[], true⟩

/-- Registry states reachable from the initial empty, unlocked state
through the locked operations. -/
inductive RegistryReachable : RegistryState → Prop
  | start : RegistryReachable ⟨[], false⟩
  | step (s t : RegistryState) :
      RegistryReachable s → RegistryStep s t → RegistryReachable t

/-! ### Helper lemmas -/

lemma lookupAssoc_append {α : Type} (l1 l2 : List (String × α)) (k : String) :
    lookupAssoc (l1 ++ l2) k =
      match lookupAssoc l1 k with
      | some v => some v
      | none => lookupAssoc l2 k := by
  induction l1 with
  | nil => simp [lookupAssoc]
  | cons hd tl ih =>
      obtain ⟨k0, v0⟩ := hd
      by_cases h : k0 = k <;> simp [lookupAssoc, h, ih]

lemma not_mem_of_lookupAssoc_eq_none {α : Type} (l : List (String × α))
    (k : String) (h : lookupAssoc l k = none) : k ∉ l.map Prod.fst := by
  induction l with
  | nil => simp
  | cons hd tl ih =>
      obtain ⟨k0, v0⟩ := hd
      by_cases hk : k0 = k
      · simp [lookupAssoc, hk] at h
      · simp only [lookupAssoc, if_neg hk] at h
        simp only [List.map_cons, List.mem_cons]
        rintro (rfl | hmem)
        · exact hk rfl
        · exact ih h hmem

lemma runPath_replicate_success (succT failT : Nat) (st : PathState)
    (c : Streaks) (n : Nat) :
    runPath succT failT (st, c) (List.replicate (n + 1) ProbeResult.success) =
      (if succT ≤ c.successCount + (n + 1) then PathState.up else st,
       ⟨c.successCount + (n + 1), 0⟩) := by
  induction n generalizing st c with
  | zero => simp [runPath, pathTransition, List.replicate]
  | succ n ih =>
      rw [List.replicate_succ]
      show runPath succT failT (pathTransition succT failT st c .success)
          (List.replicate (n + 1) ProbeResult.success) = _
      by_cases h : succT ≤ c.successCount + 1
      · have hp : pathTransition succT failT st c .success =
            (PathState.up, ⟨c.successCount + 1, 0⟩) := by
          simp [pathTransition, h]
        rw [hp, ih]
        have e : c.successCount + 1 + (n + 1) = c.successCount + (n + 1 + 1) := by
          omega
        rw [e]
        have h3 : succT ≤ c.successCount + (n + 1 + 1) := by omega
        simp [h3]
      · have hp : pathTransition succT failT st c .success =
            (st, ⟨c.successCount + 1, 0⟩) := by
          simp [pathTransition, h]
        rw [hp, ih]
        have e : c.successCount + 1 + (n + 1) = c.successCount + (n + 1 + 1) := by
          omega
        rw [e]

lemma runPath_replicate_failure (succT failT : Nat) (st : PathState)
    (c : Streaks) (n : Nat) :
    runPath succT failT (st, c) (List.replicate (n + 1) ProbeResult.failure) =
      (if failT ≤ c.failureCount + (n + 1) then PathState.down else st,
       ⟨0, c.failureCount + (n + 1)⟩) := by
  induction n generalizing st c with
  | zero => simp [runPath, pathTransition, List.replicate]
  | succ n ih =>
      rw [List.replicate_succ]
      show runPath succT failT (pathTransition succT failT st c .failure)
          (List.replicate (n + 1) ProbeResult.failure) = _
      by_cases h : failT ≤ c.failureCount + 1
      · have hp : pathTransition succT failT st c .failure =
            (PathState.down, ⟨0, c.failureCount + 1⟩) := by
          simp [pathTransition, h]
        rw [hp, ih]
        have e : c.failureCount + 1 + (n + 1) = c.failureCount + (n + 1 + 1) := by
          omega
        rw [e]
        have h3 : failT ≤ c.failureCount + (n + 1 + 1) := by omega
        simp [h3]
      · have hp : pathTransition succT failT st c .failure =
            (st, ⟨0, c.failureCount + 1⟩) := by
          simp [pathTransition, h]
        rw [hp, ih]
        have e : c.failureCount + 1 + (n + 1) = c.failureCount + (n + 1 + 1) := by
          omega
        rw [e]

lemma setReplicas_zero_mem_scaleDownCalls (env : String → Int) :
    ∀ (deps : List dependantScaleDetails) (cap : List (String × Int)),
      ∀ d ∈ deps,
        ScaleCall.setReplicas d.ScaleRefName 0 ∈ (scaleDownCalls env cap deps).2 := by
  intro deps
  induction deps with
  | nil => intro cap d hd; simp at hd
  | cons d0 ds ih =>
      intro cap d hd
      rcases List.mem_cons.1 hd with h | h
      · subst h
        cases hr : d.Replicas <;> cases hl : lookupAssoc cap d.ScaleRefName <;>
          simp [scaleDownCalls, hr, hl]
      · cases hr : d0.Replicas with
        | none =>
            cases hl : lookupAssoc cap d0.ScaleRefName with
            | none =>
                simp only [scaleDownCalls, hr, hl, List.mem_cons]
                exact Or.inr (Or.inr (ih _ d h))
            | some v =>
                simp only [scaleDownCalls, hr, hl, List.mem_cons]
                exact Or.inr (ih _ d h)
        | some r =>
            cases hl : lookupAssoc cap d0.ScaleRefName with
            | none =>
                simp only [scaleDownCalls, hr, hl, List.mem_cons]
                exact Or.inr (ih _ d h)
            | some v =>
                simp only [scaleDownCalls, hr, hl, List.mem_cons]
                exact Or.inr (ih _ d h)

lemma scaleDownCalls_spec (env : String → Int) :
    ∀ (deps : List dependantScaleDetails) (cap : List (String × Int)),
      (∀ d ∈ deps, lookupAssoc cap d.ScaleRefName = none) →
      (deps.map dependantScaleDetails.ScaleRefName).Nodup →
      scaleDownCalls env cap deps =
        (cap ++ deps.filterMap (capturedEntry env),
         (deps.map downCallPattern).flatten) := by
  intro deps
  induction deps with
  | nil => intro cap _ _; simp [scaleDownCalls]
  | cons d0 ds ih =>
      intro cap fresh nd
      have h0 : lookupAssoc cap d0.ScaleRefName = none :=
        fresh d0 (List.mem_cons_self _ _)
      simp only [List.map_cons, List.nodup_cons] at nd
      cases hr : d0.Replicas with
      | some r =>
          have htail : ∀ d ∈ ds, lookupAssoc cap d.ScaleRefName = none :=
            fun d hd => fresh d (List.mem_cons_of_mem _ hd)
          simp [scaleDownCalls, hr, h0, ih cap htail nd.2, capturedEntry,
            downCallPattern]
      | none =>
          have htail : ∀ d ∈ ds,
              lookupAssoc (cap ++ [(d0.ScaleRefName, env d0.ScaleRefName)])
                d.ScaleRefName = none := by
            intro d hd
            rw [lookupAssoc_append, fresh d (List.mem_cons_of_mem _ hd)]
            have hne : d0.ScaleRefName ≠ d.ScaleRefName := by
              intro e
              exact nd.1 (e ▸ List.mem_map_of_mem _ hd)
            simp [lookupAssoc, hne]
          simp [scaleDownCalls, hr, h0, ih _ htail nd.2, capturedEntry,
            downCallPattern]

lemma lookupAssoc_filterMap_capturedEntry (env : String → Int) :
    ∀ (deps : List dependantScaleDetails) (d : dependantScaleDetails),
      d ∈ deps → d.Replicas = none →
      lookupAssoc (deps.filterMap (capturedEntry env)) d.ScaleRefName =
        some (env d.ScaleRefName) := by
  intro deps
  induction deps with
  | nil => intro d hd _; simp at hd
  | cons d0 ds ih =>
      intro d hd hr
      cases hr0 : d0.Replicas with
      | some r =>
          have hd' : d ∈ ds := by
            rcases List.mem_cons.1 hd with rfl | h
            · rw [hr] at hr0; cases hr0
            · exact h
          simp [List.filterMap_cons, capturedEntry, hr0, ih d hd' hr]
      | none =>
          by_cases hn : d0.ScaleRefName = d.ScaleRefName
          · simp [List.filterMap_cons, capturedEntry, hr0, lookupAssoc, hn]
          · have hd' : d ∈ ds := by
              rcases List.mem_cons.1 hd with rfl | h
              · exact absurd rfl hn
              · exact h
            simp [List.filterMap_cons, capturedEntry, hr0, lookupAssoc, hn,
              ih d hd' hr]

lemma scaleUpCalls_restore (env : String → Int) (cap : List (String × Int)) :
    ∀ (deps : List dependantScaleDetails),
      (∀ d ∈ deps, d.Replicas = none →
        lookupAssoc cap d.ScaleRefName = some (env d.ScaleRefName)) →
      scaleUpCalls cap deps =
        deps.map (fun d => ScaleCall.setReplicas d.ScaleRefName
          (d.Replicas.getD (env d.ScaleRefName))) := by
  intro deps
  induction deps with
  | nil => intro _; simp [scaleUpCalls]
  | cons d0 ds ih =>
      intro h
      have htail : ∀ d ∈ ds, d.Replicas = none →
          lookupAssoc cap d.ScaleRefName = some (env d.ScaleRefName) :=
        fun d hd => h d (List.mem_cons_of_mem _ hd)
      cases hr : d0.Replicas with
      | some r => simp [scaleUpCalls, hr, ih htail]
      | none =>
          have h0 := h d0 (List.mem_cons_self _ _) hr
          simp [scaleUpCalls, hr, h0, ih htail]

lemma count_le_one_of_nodup_keys :
    ∀ (l : List (String × Nat)), (l.map Prod.fst).Nodup →
      ∀ k, (l.filter (fun e => e.1 = k)).length ≤ 1 := by
  intro l
  induction l with
  | nil => intro _ k; simp
  | cons hd tl ih =>
      intro h k
      obtain ⟨k0, v0⟩ := hd
      simp only [List.map_cons, List.nodup_cons] at h
      by_cases e : k0 = k
      · subst e
        have hnil : tl.filter (fun x => x.1 = k0) = [] := by
          rw [List.filter_eq_nil_iff]
          intro a ha
          simp only [decide_eq_true_eq]
          intro hak
          exact h.1 (hak ▸ List.mem_map_of_mem _ ha)
        simp [List.filter_cons, hnil]
      · simp only [List.filter_cons]
        have : (decide ((k0, v0).1 = k)) = false := by simp [e]
        rw [this]
        simp only [Bool.false_eq_true, if_neg (by simp : ¬False)]
        exact ih h.2 k

/-! ### Claim theorems -/

/-- C3: whenever the internal path's logical state is Down, an
evaluation sequence issues no scale call at all, whatever the external
path does, and the prober's scale bookkeeping (last-applied state and
captured replicas) is retained unchanged. -/
theorem internal_down_freezes_scaling :
    ∀ (env : String → Int) (deps : List dependantScaleDetails)
      (p : ProberScaleState) (es : List PathState),
      evaluateSeq env deps p (es.map (fun e => (PathState.down, e))) = (p, []) := by
  intro env deps p es
  induction es generalizing p with
  | nil => rfl
  | cons e rest ih =>
      have h1 : evaluate env deps p PathState.down e = (p, []) := by
        cases e <;> rfl
      simp [evaluateSeq, h1, ih p]

/-- C4: scale decisions are idempotent. Applying a desired scale state
that equals the last-applied state issues no actuator call, and issuing
the same desired scale state twice in succession issues no call on the
second application. -/
theorem scale_decision_idempotent :
    (∀ (env env' : String → Int) (deps : List dependantScaleDetails)
        (p : ProberScaleState) (d : PathState),
        (ensureScale env' deps (ensureScale env deps p d).1 d).2 = []) ∧
    (∀ (env : String → Int) (deps : List dependantScaleDetails)
        (p : ProberScaleState) (d : PathState),
        p.lastApplied = d → ensureScale env deps p d = (p, [])) := by
  constructor
  · intro env env' deps p d
    by_cases hc : p.cancelled
    · simp [ensureScale, hc]
    · by_cases hl : p.lastApplied = d
      · simp [ensureScale, hc, hl]
      · cases d <;> simp [ensureScale, hc, hl]
  · intro env deps p d h
    simp [ensureScale, h]

/-- Witness for C4: a prober whose last-applied state is already Up
issues nothing when Up is requested again, and a second application of
Down right after a first one issues nothing. -/
theorem scale_decision_idempotent_witness :
    (ensureScale (fun _ => 2) [⟨"kcm", none⟩]
      (ensureScale (fun _ => 1) [⟨"kcm", none⟩]
        ⟨PathState.unknown, [], false⟩ PathState.down).1 PathState.down).2 = [] ∧
    ensureScale (fun _ => 1) [⟨"kcm", none⟩]
      ⟨PathState.up, [], false⟩ PathState.up =
      (⟨PathState.up, [], false⟩, []) :=
  ⟨scale_decision_idempotent.1 (fun _ => 1) (fun _ => 2) [⟨"kcm", none⟩]
      ⟨PathState.unknown, [], false⟩ PathState.down,
   scale_decision_idempotent.2 (fun _ => 1) [⟨"kcm", none⟩]
      ⟨PathState.up, [], false⟩ PathState.up rfl⟩

/-- C7: once a prober's cancellation is observed, an evaluation issues
no scale call, even though logical path states (a probe result already
in hand) are supplied to it. -/
theorem cancelled_prober_issues_no_calls :
    ∀ (env : String → Int) (deps : List dependantScaleDetails)
      (p : ProberScaleState) (i e : PathState),
      p.cancelled = true → evaluate env deps p i e = (p, []) := by
  intro env deps p i e hc
  cases i <;> cases e <;> simp [evaluate, decideScale, ensureScale, hc]

/-- Witness for C7: a cancelled prober holding a result that would
otherwise demand a scale-down issues nothing. -/
theorem cancelled_prober_issues_no_calls_witness :
    evaluate (fun _ => 1) [⟨"kcm", none⟩] ⟨PathState.up, [], true⟩
      PathState.up PathState.down = (⟨PathState.up, [], true⟩, []) :=
  cancelled_prober_issues_no_calls (fun _ => 1) [⟨"kcm", none⟩]
    ⟨PathState.up, [], true⟩ PathState.up PathState.down rfl

/-- C8 counterexample: the claim that `InitialDelaySeconds`,
`TimeoutSeconds`, `PeriodSeconds`, `SuccessThreshold` and
`FailureThreshold` are required (always-present) fields of
`probeConfig` is false: the configuration with every field absent is a
value of the type. -/
theorem probeConfig_required_fields_cex :
    ¬ (∀ c : probeConfig, c.InitialDelaySeconds.isSome ∧
        c.TimeoutSeconds.isSome ∧ c.PeriodSeconds.isSome ∧
        c.SuccessThreshold.isSome ∧ c.FailureThreshold.isSome) := by
  intro h
  have := h ⟨none, none, none, none, none, none, none⟩
  simp at this

/-- C8 amended: in `probeConfig` every field is optional — the
credential references and all five timing/threshold fields alike may be
absent, and all may be present. -/
theorem probeConfig_all_fields_optional :
    (∃ c : probeConfig, c.External = none ∧ c.Internal = none ∧
      c.InitialDelaySeconds = none ∧ c.TimeoutSeconds = none ∧
      c.PeriodSeconds = none ∧ c.SuccessThreshold = none ∧
      c.FailureThreshold = none) ∧
    (∃ c : probeConfig, c.External.isSome ∧ c.Internal.isSome ∧
      c.InitialDelaySeconds.isSome ∧ c.TimeoutSeconds.isSome ∧
      c.PeriodSeconds.isSome ∧ c.SuccessThreshold.isSome ∧
      c.FailureThreshold.isSome) :=
  ⟨⟨⟨none, none, none, none, none, none, none⟩, by simp⟩,
   ⟨⟨some ⟨"ext"⟩, some ⟨"int"⟩, some 30, some 10, some 10, some 1, some 3⟩,
    by simp⟩⟩

/-- C9: the registry key of a probe target is
`"<namespace>/<name>"`, and within the group's namespace distinct
target names give distinct keys. -/
theorem prober_key_format_and_unique :
    ∀ (ns n1 n2 : String),
      proberKey ns n1 = ns ++ "/" ++ n1 ∧
      (proberKey ns n1 = proberKey ns n2 → n1 = n2) := by
  intro ns n1 n2
  refine ⟨rfl, fun h => ?_⟩
  have h2 : (ns ++ "/" ++ n1).data = (ns ++ "/" ++ n2).data :=
    congrArg String.data h
  simp only [String.data_append] at h2
  exact String.ext (List.append_cancel_left h2)

/-- Witness for C9 at the spec's example target. -/
theorem prober_key_format_and_unique_witness :
    proberKey "shoot-a" "apiserver" = "shoot-a" ++ "/" ++ "apiserver" ∧
    ("apiserver" : String) = "apiserver" :=
  ⟨(prober_key_format_and_unique "shoot-a" "apiserver" "apiserver").1,
   (prober_key_format_and_unique "shoot-a" "apiserver" "apiserver").2 rfl⟩

/-- C6: for one probe path, `n ≥ 1` consecutive successes raise the
streak to `successCount + n` with the failure streak zeroed, and flip
the state to Up exactly when the streak reaches `SuccessThreshold`
(dually for failures and `FailureThreshold`); a single definitive
result zeroes the opposite counter, and a result whose streak stays
below the threshold leaves the state unchanged. -/
theorem streak_threshold_semantics :
    ∀ (succT failT : Nat) (st : PathState) (c : Streaks) (n : Nat), 1 ≤ n →
      (runPath succT failT (st, c) (List.replicate n ProbeResult.success) =
        (if succT ≤ c.successCount + n then PathState.up else st,
         ⟨c.successCount + n, 0⟩)) ∧
      (runPath succT failT (st, c) (List.replicate n ProbeResult.failure) =
        (if failT ≤ c.failureCount + n then PathState.down else st,
         ⟨0, c.failureCount + n⟩)) ∧
      (pathTransition succT failT st c ProbeResult.success).2.failureCount = 0 ∧
      (pathTransition succT failT st c ProbeResult.failure).2.successCount = 0 ∧
      (¬ succT ≤ c.successCount + 1 →
        (pathTransition succT failT st c ProbeResult.success).1 = st) ∧
      (¬ failT ≤ c.failureCount + 1 →
        (pathTransition succT failT st c ProbeResult.failure).1 = st) := by
  intro succT failT st c n hn
  obtain ⟨m, rfl⟩ : ∃ m, n = m + 1 := ⟨n - 1, by omega⟩
  refine ⟨runPath_replicate_success succT failT st c m,
    runPath_replicate_failure succT failT st c m,
    by simp [pathTransition], by simp [pathTransition],
    fun h => by simp [pathTransition, h],
    fun h => by simp [pathTransition, h]⟩

/-- Witness for C6 at `SuccessThreshold = 1`, `FailureThreshold = 3`,
three results in a row from a fresh path. -/
theorem streak_threshold_semantics_witness :
    (runPath 1 3 (PathState.unknown, ⟨0, 0⟩)
        (List.replicate 3 ProbeResult.success) = (PathState.up, ⟨3, 0⟩)) ∧
    (runPath 1 3 (PathState.unknown, ⟨0, 0⟩)
        (List.replicate 3 ProbeResult.failure) = (PathState.down, ⟨0, 3⟩)) ∧
    ((pathTransition 1 3 PathState.unknown ⟨0, 0⟩
        ProbeResult.success).2.failureCount = 0) ∧
    ((pathTransition 1 3 PathState.unknown ⟨0, 0⟩
        ProbeResult.failure).2.successCount = 0) ∧
    (¬ (1 : Nat) ≤ 0 + 1 →
      (pathTransition 1 3 PathState.unknown ⟨0, 0⟩ ProbeResult.success).1 =
        PathState.unknown) ∧
    (¬ (3 : Nat) ≤ 0 + 1 →
      (pathTransition 1 3 PathState.unknown ⟨0, 0⟩ ProbeResult.failure).1 =
        PathState.unknown) :=
  streak_threshold_semantics 1 3 PathState.unknown ⟨0, 0⟩ 3 (by decide)

/-- C10: the package bootstrap pre-creates, at value zero, exactly the
labelled series of the internal/external probe counters (success and
failure), the cache-lookup counter (secrets and deployments), and the
scale-request and throttled-scale-request counters (discovery, GET,
UPDATE), and registers all six collectors. -/
theorem metrics_init_series_and_registration :
    scalerInit.series =
      [(metricFullName "internal_probes_total", resultSuccess, 0),
       (metricFullName "external_probes_total", resultSuccess, 0),
       (metricFullName "internal_probes_total", resultFailure, 0),
       (metricFullName "external_probes_total", resultFailure, 0),
       (metricFullName "get_from_cache_total", resourceSecrets, 0),
       (metricFullName "get_from_cache_total", resourceDeployments, 0),
       (metricFullName "scale_requests_total", verbDiscovery, 0),
       (metricFullName "throttled_scale_requests_total", verbDiscovery, 0),
       (metricFullName "scale_requests_total", verbGet, 0),
       (metricFullName "throttled_scale_requests_total", verbGet, 0),
       (metricFullName "scale_requests_total", verbUpdate, 0),
       (metricFullName "throttled_scale_requests_total", verbUpdate, 0)] ∧
    scalerInit.registered =
      [metricFullName "probers_total",
       metricFullName "get_from_cache_total",
       metricFullName "internal_probes_total",
       metricFullName "external_probes_total",
       metricFullName "scale_requests_total",
       metricFullName "throttled_scale_requests_total"] :=
  ⟨by rfl, by rfl⟩

/-- C1: an evaluation installs scale state Down with a nonempty call
sequence only when the internal path is Up and the external path is
Down, and then the zero-scale update is issued for every dependant;
moreover a path's logical state becomes Down from a non-Down state
only on a failure whose streak reaches `FailureThreshold`. -/
theorem scale_down_only_on_divergence :
    (∀ (env : String → Int) (deps : List dependantScaleDetails)
        (p : ProberScaleState) (i e : PathState),
        (evaluate env deps p i e).1.lastApplied = PathState.down →
        (evaluate env deps p i e).2 ≠ [] →
        i = PathState.up ∧ e = PathState.down ∧
          ∀ d ∈ deps, ScaleCall.setReplicas d.ScaleRefName 0 ∈
            (evaluate env deps p i e).2) ∧
    (∀ (succT failT : Nat) (st : PathState) (c : Streaks) (r : ProbeResult),
        st ≠ PathState.down →
        (pathTransition succT failT st c r).1 = PathState.down →
        r = ProbeResult.failure ∧ failT ≤ c.failureCount + 1) := by
  constructor
  · intro env deps p i e h1 h2
    cases i <;> cases e
    · exact absurd rfl h2
    · exact absurd rfl h2
    · exact absurd rfl h2
    · exact absurd rfl h2
    · -- internal Up, external Up: the evaluation cannot install Down
      exfalso
      by_cases hc : p.cancelled
      · rw [show evaluate env deps p PathState.up PathState.up = (p, []) from
          by simp [evaluate, decideScale, ensureScale, hc]] at h2
        exact h2 rfl
      · by_cases hl : p.lastApplied = PathState.up
        · rw [show evaluate env deps p PathState.up PathState.up = (p, []) from
            by simp [evaluate, decideScale, ensureScale, hc, hl]] at h2
          exact h2 rfl
        · rw [show evaluate env deps p PathState.up PathState.up =
              ({ p with lastApplied := PathState.up },
               scaleUpCalls p.captured deps) from
            by simp [evaluate, decideScale, ensureScale, hc, hl]] at h1
          simp at h1
    · -- internal Up, external Down: the scale-down case
      refine ⟨rfl, rfl, ?_⟩
      by_cases hc : p.cancelled
      · rw [show evaluate env deps p PathState.up PathState.down = (p, []) from
          by simp [evaluate, decideScale, ensureScale, hc]] at h2
        exact absurd rfl h2
      · by_cases hl : p.lastApplied = PathState.down
        · rw [show evaluate env deps p PathState.up PathState.down = (p, []) from
            by simp [evaluate, decideScale, ensureScale, hc, hl]] at h2
          exact absurd rfl h2
        · have he : evaluate env deps p PathState.up PathState.down =
              ({ p with lastApplied := PathState.down,
                        captured := (scaleDownCalls env p.captured deps).1 },
               (scaleDownCalls env p.captured deps).2) := by
            simp [evaluate, decideScale, ensureScale, hc, hl]
          rw [he]
          intro d hd
          exact setReplicas_zero_mem_scaleDownCalls env deps p.captured d hd
    · exact absurd rfl h2
    · exact absurd rfl h2
    · exact absurd rfl h2
  · intro succT failT st c r hst h2
    cases r with
    | success =>
        simp only [pathTransition] at h2
        split at h2
        · cases h2
        · exact absurd h2 hst
    | failure =>
        refine ⟨rfl, ?_⟩
        by_contra hlt
        simp only [pathTransition] at h2
        rw [if_neg hlt] at h2
        exact hst h2

/-- Witness for C1: a fresh prober seeing internal Up and external Down
issues the zero-scale update for its dependant, and a path at failure
streak 2 with `FailureThreshold = 3` goes Down on the third failure. -/
theorem scale_down_only_on_divergence_witness :
    (ScaleCall.setReplicas "kcm" 0 ∈
      (evaluate (fun _ => 1) [⟨"kcm", none⟩]
        ⟨PathState.unknown, [], false⟩ PathState.up PathState.down).2) ∧
    (ProbeResult.failure = ProbeResult.failure ∧
      (3 : Nat) ≤ (Streaks.mk 0 2).failureCount + 1) :=
  ⟨(scale_down_only_on_divergence.1 (fun _ => 1) [⟨"kcm", none⟩]
      ⟨PathState.unknown, [], false⟩ PathState.up PathState.down
      (by decide) (by decide)).2.2 ⟨"kcm", none⟩ (by decide),
   scale_down_only_on_divergence.2 0 3 PathState.up ⟨0, 2⟩
     ProbeResult.failure (by decide) (by decide)⟩

/-- C2: for a prober with no stale captures, a scale-down issues, per
dependant, the replica read (when no explicit restore count is set)
followed by the zero-scale update; the following scale-up restores
each dependant exactly to its explicit restore count when configured
and otherwise to the count read before the scale-down — never the
count at restore time and never a constant. -/
theorem scale_up_restores_captured_value :
    ∀ (env env' : String → Int) (deps : List dependantScaleDetails)
      (p : ProberScaleState),
      p.cancelled = false →
      p.lastApplied ≠ PathState.down →
      (∀ d ∈ deps, lookupAssoc p.captured d.ScaleRefName = none) →
      (deps.map dependantScaleDetails.ScaleRefName).Nodup →
      (evaluate env deps p PathState.up PathState.down).2 =
        (deps.map downCallPattern).flatten ∧
      (evaluate env' deps (evaluate env deps p PathState.up PathState.down).1
          PathState.up PathState.up).2 =
        deps.map (fun d => ScaleCall.setReplicas d.ScaleRefName
          (d.Replicas.getD (env d.ScaleRefName))) := by
  intro env env' deps p hc hl fresh nd
  have hdown := scaleDownCalls_spec env deps p.captured fresh nd
  have e1 : evaluate env deps p PathState.up PathState.down =
      ({ p with lastApplied := PathState.down,
                captured := (scaleDownCalls env p.captured deps).1 },
       (scaleDownCalls env p.captured deps).2) := by
    simp [evaluate, decideScale, ensureScale, hc, hl]
  have cap1 : (scaleDownCalls env p.captured deps).1 =
      p.captured ++ deps.filterMap (capturedEntry env) := by
    rw [hdown]
  constructor
  · rw [e1, hdown]
  · rw [e1]
    have e2 : evaluate env' deps
        ({ p with lastApplied := PathState.down,
                  captured := (scaleDownCalls env p.captured deps).1 })
        PathState.up PathState.up =
        ({ p with lastApplied := PathState.up,
                  captured := (scaleDownCalls env p.captured deps).1 },
         scaleUpCalls (scaleDownCalls env p.captured deps).1 deps) := by
      simp [evaluate, decideScale, ensureScale, hc]
    rw [e2]
    show scaleUpCalls (scaleDownCalls env p.captured deps).1 deps = _
    rw [cap1]
    apply scaleUpCalls_restore
    intro d hd hr
    rw [lookupAssoc_append, fresh d hd]
    show lookupAssoc (deps.filterMap (capturedEntry env)) d.ScaleRefName =
      some (env d.ScaleRefName)
    exact lookupAssoc_filterMap_capturedEntry env deps d hd hr

/-- Witness for C2: one dependant at 1 replica, no explicit restore
count; the scale-down reads then zeroes it, and the scale-up restores
it to 1 even though its count at restore time (`env'`) is 7. -/
theorem scale_up_restores_captured_value_witness :
    (evaluate (fun _ => 1) [⟨"kcm", none⟩] ⟨PathState.unknown, [], false⟩
        PathState.up PathState.down).2 =
      (([⟨"kcm", none⟩] : List dependantScaleDetails).map downCallPattern).flatten ∧
    (evaluate (fun _ => 7) [⟨"kcm", none⟩]
        (evaluate (fun _ => 1) [⟨"kcm", none⟩] ⟨PathState.unknown, [], false⟩
          PathState.up PathState.down).1 PathState.up PathState.up).2 =
      ([⟨"kcm", none⟩] : List dependantScaleDetails).map
        (fun d => ScaleCall.setReplicas d.ScaleRefName
          (d.Replicas.getD ((fun _ => (1 : Int)) d.ScaleRefName))) :=
  scale_up_restores_captured_value (fun _ => 1) (fun _ => 7) [⟨"kcm", none⟩]
    ⟨PathState.unknown, [], false⟩ rfl (by decide) (by decide) (by decide)

/-- C5: every registry state reachable through the locked operations
holds at most one live prober per key: the key column of the mapping
has no duplicate, so each key matches at most one entry. -/
theorem registry_unique_prober_per_key :
    ∀ s : RegistryState, RegistryReachable s →
      (s.probers.map Prod.fst).Nodup ∧
      ∀ k, (s.probers.filter (fun e => e.1 = k)).length ≤ 1 := by
  intro s h
  have hnd : (s.probers.map Prod.fst).Nodup := by
    induction h with
    | start => simp
    | step s t hs hstep ih =>
        cases hstep with
        | acquire h1 => exact ih
        | release h1 => exact ih
        | insertProber k pid h1 h2 =>
            have hk := not_mem_of_lookupAssoc_eq_none _ _ h2
            show ((s.probers ++ [(k, pid)]).map Prod.fst).Nodup
            rw [List.map_append]
            refine List.nodup_append.mpr ⟨ih, List.nodup_singleton _, ?_⟩
            intro a ha hb
            have hak : a = k := by simpa using hb
            exact hk (hak ▸ ha)
        | removeProber k h1 =>
            exact List.Nodup.sublist
              ((List.filter_sublist s.probers).map Prod.fst) ih
        | clearAll h1 => simp
  exact ⟨hnd, count_le_one_of_nodup_keys s.probers hnd⟩

/-- Witness for C5: the registry reached by taking the lock and
inserting one prober for the example key has duplicate-free keys and at
most one entry for that key. -/
theorem registry_unique_prober_per_key_witness :
    (((RegistryState.mk [("shoot-a/apiserver", 0)] true).probers.map
        Prod.fst).Nodup) ∧
    (((RegistryState.mk [("shoot-a/apiserver", 0)] true).probers.filter
        (fun e => e.1 = "shoot-a/apiserver")).length ≤ 1) :=
  have hr : RegistryReachable ⟨[("shoot-a/apiserver", 0)], true⟩ :=
    RegistryReachable.step _ _
      (RegistryReachable.step _ _ RegistryReachable.start
        (RegistryStep.acquire ⟨[], false⟩ rfl))
      (RegistryStep.insertProber ⟨[], true⟩ "shoot-a/apiserver" 0 rfl rfl)
  ⟨(registry_unique_prober_per_key ⟨[("shoot-a/apiserver", 0)], true⟩ hr).1,
   (registry_unique_prober_per_key ⟨[("shoot-a/apiserver", 0)], true⟩ hr).2
     "shoot-a/apiserver"⟩

end DWD
